import Mathlib

/-!
# GameVoting deployment and upgrade scripts

A shallow embedding of `scripts/deploy.js` and `scripts/upgrade.js`.

Both scripts are straight-line `async` functions that talk to two external
collaborators (the hardhat/ethers artifact factory and the chain client) and
to the console.  Every collaborator request is embedded as a field of
`World`: a function from the collaborator's state to either a returned value
or a thrown error, together with the collaborator's next state.  The scripts
themselves run in the monad `Run`, which threads the collaborator state, the
transcript of requests made so far and the lines written to standard output,
and which stops at the first thrown error, as `await` on a rejected promise
does.
-/

namespace GameVoting

/-! ## Values exchanged with the collaborators -/

/-- Addresses are the strings that `getAddress()` and `gameVotingProxy()` resolve to. -/
abbrev Address := String

/-- A thrown JavaScript error value, identified by its message. -/
structure JsError where
  message : String
deriving DecidableEq, Repr

/-- The result of one collaborator request: a value, or a thrown error. -/
inductive Res (α : Type) where
  | ok (value : α)
  | error (err : JsError)
deriving DecidableEq, Repr

/-- Whether a result is a value. -/
def Res.isOk {α : Type} : Res α → Bool
  | .ok _ => true
  | .error _ => false

/-- The requests the two scripts make, with their arguments.  `F`, `H` and `T`
are the collaborator's contract factories, contract handles and pending
transactions; the scripts never look inside them. -/
inductive Call (F H T : Type) where
  | getContractFactory (name : String)
  | deploy (factory : F)
  | waitForDeployment (handle : H)
  | getAddress (handle : H)
  | attach (factory : F) (target : Address)
  | deployProxy (admin : H) (impl : Address)
  | upgrade (admin : H) (impl : Address)
  | wait (tx : T)
  | gameVotingProxy (admin : H)
deriving DecidableEq, Repr

/-- The method named by a request, without its arguments. -/
inductive CallKind where
  | getContractFactory | deploy | waitForDeployment | getAddress | attach
  | deployProxy | upgrade | wait | gameVotingProxy
deriving DecidableEq, Repr

/-- The method a request names. -/
def Call.kind {F H T : Type} : Call F H T → CallKind
  | .getContractFactory _ => .getContractFactory
  | .deploy _ => .deploy
  | .waitForDeployment _ => .waitForDeployment
  | .getAddress _ => .getAddress
  | .attach _ _ => .attach
  | .deployProxy _ _ => .deployProxy
  | .upgrade _ _ => .upgrade
  | .wait _ => .wait
  | .gameVotingProxy _ => .gameVotingProxy

/-- A value returned by a collaborator request. -/
inductive Ret (F H T : Type) where
  | factory (f : F)
  | handle (h : H)
  | address (a : Address)
  | tx (t : T)
  | unit
deriving DecidableEq, Repr

/-- One entry of the transcript: the request and what came back. -/
structure Event (F H T : Type) where
  call : Call F H T
  ret : Res (Ret F H T)
deriving DecidableEq, Repr

/-- The collaborators, as seen by the scripts.  Each request maps the
collaborator state to a result and a next state; the state may change also
when the request throws. -/
structure World (σ F H T : Type) where
  getContractFactory : String → σ → Res F × σ
  deploy : F → σ → Res H × σ
  waitForDeployment : H → σ → Res Unit × σ
  getAddress : H → σ → Res Address × σ
  attach : F → Address → σ → Res H × σ
  deployProxy : H → Address → σ → Res T × σ
  upgrade : H → Address → σ → Res T × σ
  wait : T → σ → Res Unit × σ
  gameVotingProxy : H → σ → Res Address × σ

/-! ## The monad the scripts run in -/

/-- What a run has done so far. -/
structure RunState (σ F H T : Type) where
  world : σ
  trace : List (Event F H T)
  stdout : List (List String)

/-- A script fragment: from the state so far to a result and the state after. -/
def Run (σ F H T α : Type) : Type :=
  RunState σ F H T → Res α × RunState σ F H T

/-- Returning a value changes nothing. -/
def Run.pure {σ F H T α : Type} (a : α) : Run σ F H T α :=
  fun st => (.ok a, st)

/-- Sequencing stops at the first thrown error. -/
def Run.bind {σ F H T α β : Type} (m : Run σ F H T α) (f : α → Run σ F H T β) :
    Run σ F H T β :=
  fun st =>
    match m st with
    | (.ok a, st1) => f a st1
    | (.error e, st1) => (.error e, st1)

instance {σ F H T : Type} : Monad (Run σ F H T) where
  pure := Run.pure
  bind := Run.bind

/-- The JavaScript `throw`. -/
def jsThrow {σ F H T α : Type} (e : JsError) : Run σ F H T α :=
  fun st => (.error e, st)

/-- The call `console.log(...args)`: the arguments become one line of standard output. -/
def consoleLog {σ F H T : Type} (args : List String) : Run σ F H T Unit :=
  fun st => (.ok (), { st with stdout := st.stdout ++ [args] })

/-- One collaborator request: run it on the collaborator state and append the
request and its result to the transcript. -/
def perform {σ F H T α : Type} (c : Call F H T) (inj : α → Ret F H T)
    (op : σ → Res α × σ) : Run σ F H T α :=
  fun st =>
    match op st.world with
    | (.ok a, w) =>
      (.ok a, { st with world := w, trace := st.trace ++ [⟨c, .ok (inj a)⟩] })
    | (.error e, w) =>
      (.error e, { st with world := w, trace := st.trace ++ [⟨c, .error e⟩] })

/-! ## `scripts/deploy.js` -/

/-- The function `main` of `scripts/deploy.js`. -/
def deployMain {σ F H T : Type} (W : World σ F H T) : Run σ F H T Unit := do
  consoleLog ["Starting deployment..."]
  consoleLog ["Deploying GameVoting implementation..."]
  let GameVoting ← perform (.getContractFactory "GameVoting") .factory
    (W.getContractFactory "GameVoting")
  let gameVoting ← perform (.deploy GameVoting) .handle (W.deploy GameVoting)
  perform (.waitForDeployment gameVoting) (fun _ => .unit) (W.waitForDeployment gameVoting)
  let implementationAddress ← perform (.getAddress gameVoting) .address (W.getAddress gameVoting)
  consoleLog ["GameVoting implementation deployed to:", implementationAddress]
  consoleLog ["Deploying GameVotingAdmin..."]
  let GameVotingAdmin ← perform (.getContractFactory "GameVotingAdmin") .factory
    (W.getContractFactory "GameVotingAdmin")
  let admin ← perform (.deploy GameVotingAdmin) .handle (W.deploy GameVotingAdmin)
  perform (.waitForDeployment admin) (fun _ => .unit) (W.waitForDeployment admin)
  let adminAddress ← perform (.getAddress admin) .address (W.getAddress admin)
  consoleLog ["GameVotingAdmin deployed to:", adminAddress]
  consoleLog ["Deploying Proxy through Admin..."]
  let deployTx ← perform (.deployProxy admin implementationAddress) .tx
    (W.deployProxy admin implementationAddress)
  perform (.wait deployTx) (fun _ => .unit) (W.wait deployTx)
  let proxyAddress ← perform (.gameVotingProxy admin) .address (W.gameVotingProxy admin)
  consoleLog ["Proxy deployed to:", proxyAddress]
  consoleLog ["\nDeployment Summary:"]
  consoleLog ["-------------------"]
  consoleLog ["Implementation:", implementationAddress]
  consoleLog ["Admin:", adminAddress]
  consoleLog ["Proxy:", proxyAddress]
  consoleLog ["\nTo interact with the contract, use the proxy address with the GameVoting ABI"]

/-! ## `scripts/upgrade.js` -/

/-- The test `!adminAddress` on the value of `process.env.ADMIN_CONTRACT_ADDRESS`,
which is a string or `undefined`: true for `undefined` and for the empty string. -/
def isFalsy : Option String → Bool
  | none => true
  | some s => s == ""

/-- The function `main` of `scripts/upgrade.js`; `env` is the value of
`process.env.ADMIN_CONTRACT_ADDRESS`. -/
def upgradeMain {σ F H T : Type} (W : World σ F H T) (env : Option String) :
    Run σ F H T Unit := do
  consoleLog ["Starting upgrade process..."]
  let adminAddress := env
  if isFalsy adminAddress then
    jsThrow ⟨"Please set ADMIN_CONTRACT_ADDRESS in your environment"⟩
  let adminAddress := adminAddress.getD ""
  consoleLog ["Deploying new GameVoting implementation..."]
  let GameVoting ← perform (.getContractFactory "GameVoting") .factory
    (W.getContractFactory "GameVoting")
  let newImplementation ← perform (.deploy GameVoting) .handle (W.deploy GameVoting)
  perform (.waitForDeployment newImplementation) (fun _ => .unit)
    (W.waitForDeployment newImplementation)
  let newImplementationAddress ← perform (.getAddress newImplementation) .address
    (W.getAddress newImplementation)
  consoleLog ["New GameVoting implementation deployed to:", newImplementationAddress]
  let GameVotingAdmin ← perform (.getContractFactory "GameVotingAdmin") .factory
    (W.getContractFactory "GameVotingAdmin")
  let admin ← perform (.attach GameVotingAdmin adminAddress) .handle
    (W.attach GameVotingAdmin adminAddress)
  consoleLog ["Upgrading proxy to new implementation..."]
  let upgradeTx ← perform (.upgrade admin newImplementationAddress) .tx
    (W.upgrade admin newImplementationAddress)
  perform (.wait upgradeTx) (fun _ => .unit) (W.wait upgradeTx)
  consoleLog ["\nUpgrade Summary:"]
  consoleLog ["----------------"]
  consoleLog ["New Implementation:", newImplementationAddress]
  consoleLog ["Admin Contract:", adminAddress]
  let proxy ← perform (.gameVotingProxy admin) .address (W.gameVotingProxy admin)
  consoleLog ["Proxy Address:", proxy]
  consoleLog ["\nUpgrade completed successfully!"]

/-! ## The top level of both scripts -/

/-- What the operating system and the operator see of a finished script. -/
structure Exit (σ F H T : Type) where
  code : Nat
  stderr : List JsError
  final : RunState σ F H T

/-- The chain `main().then(() => process.exit(0)).catch((error) => { console.error(error);
process.exit(1); })` that ends both scripts. -/
def runScript {σ F H T : Type} (main : Run σ F H T Unit) (s : σ) : Exit σ F H T :=
  match main ⟨s, [], []⟩ with
  | (.ok _, st) => ⟨0, [], st⟩
  | (.error error, st) => ⟨1, [error], st⟩

/-- A run of `scripts/deploy.js` from collaborator state `s`. -/
def deployRun {σ F H T : Type} (W : World σ F H T) (s : σ) : Res Unit × RunState σ F H T :=
  deployMain W ⟨s, [], []⟩

/-- A run of `scripts/upgrade.js` from collaborator state `s`. -/
def upgradeRun {σ F H T : Type} (W : World σ F H T) (env : Option String) (s : σ) :
    Res Unit × RunState σ F H T :=
  upgradeMain W env ⟨s, [], []⟩

/-! ## The proxy administration unit and the chain behind it -/

/-- Modelled from the spec: the ProxyUnit of section 3, whose contract is not
among the sources.  It has an address fixed at creation and a
current-implementation reference. -/
structure ProxyUnit where
  address : Address
  currentImplementation : Address
deriving DecidableEq, Repr

/-- Modelled from the spec: the states of the proxy administration unit of
section 4.3 (the contract `GameVotingAdmin` is not among the sources).
`Unbound` is the initial state; `Bound` carries the proxy created by the
first `create`, whose implementation reference each `upgrade` rewrites. -/
inductive AdminState where
  | Unbound
  | Bound (proxy : ProxyUnit)
deriving DecidableEq, Repr

/-- Modelled from the spec: the AdminUnit of section 3 together with the
owner that section 4.3 authorises to invoke its transitions. -/
structure AdminUnit where
  owner : Address
  state : AdminState
deriving DecidableEq, Repr

/-- Modelled from the spec: the transition `create(implAddr)` of section 4.3,
legal only from `Unbound` and only for the owner; it creates the proxy at
`proxyAddr` and moves to `Bound`. -/
def AdminUnit.create (caller proxyAddr implAddr : Address) (u : AdminUnit) : Res AdminUnit :=
  if caller ≠ u.owner then .error ⟨"caller is not the owner"⟩
  else match u.state with
    | .Unbound => .ok { u with state := .Bound ⟨proxyAddr, implAddr⟩ }
    | .Bound _ => .error ⟨"proxy already created"⟩

/-- Modelled from the spec: the transition `upgrade(implAddr)` of section 4.3,
legal only from `Bound` and only for the owner; it rewrites the proxy's
implementation reference in place and leaves the proxy address alone. -/
def AdminUnit.upgrade (caller implAddr : Address) (u : AdminUnit) : Res AdminUnit :=
  if caller ≠ u.owner then .error ⟨"caller is not the owner"⟩
  else match u.state with
    | .Unbound => .error ⟨"proxy not created"⟩
    | .Bound proxy => .ok { u with state := .Bound { proxy with currentImplementation := implAddr } }

/-- Modelled from the spec: the value read for a proxy reference that section 3
calls absent.  The spec names no value; the model uses the zero address, which
a contract reports for an address it never set. -/
def zeroAddress : Address := "0x0000000000000000000000000000000000000000"

/-- Modelled from the spec: reading the bound proxy address of an AdminUnit. -/
def AdminUnit.gameVotingProxy (u : AdminUnit) : Address :=
  match u.state with
  | .Unbound => zeroAddress
  | .Bound proxy => proxy.address

/-- Modelled from the spec: the handle of the collaborator interface of
section 6, which the artifact factory returns from `deploy(typeName)` and
`attach(typeName, address)`: the contract type and the address it targets. -/
structure Handle where
  typeName : String
  address : Address
deriving DecidableEq, Repr

/-- Modelled from the spec: the state of the chain client and artifact factory
of section 2, which are external to the repository.  `faults` lists the
requests (counted by `tick`) that the chain client fails with a transport
error, whatever they are. -/
structure Chain where
  signer : Address
  nonce : Nat
  implementations : List Address
  admins : List (Address × AdminUnit)
  tick : Nat
  faults : List Nat
deriving DecidableEq, Repr

/-- Modelled from the spec: the AdminUnit the chain holds at an address, if any. -/
def Chain.adminAt (c : Chain) (a : Address) : Option AdminUnit :=
  c.admins.lookup a

/-- Modelled from the spec: the chain after one more request has reached the
chain client. -/
def Chain.next (c : Chain) : Chain :=
  { c with tick := c.tick + 1 }

/-- Modelled from the spec: one request to the chain client.  A request
listed in `faults` throws a transport error; any other is served by `op`. -/
def Chain.serve {α : Type} (op : Chain → Res α × Chain) (c : Chain) : Res α × Chain :=
  if c.tick ∈ c.faults then (.error ⟨"transport error"⟩, c.next)
  else op c.next

/-- Modelled from the spec: the collaborator interface of section 6 over the
chain model.  `addrOf n` is the address the chain gives to the `n`-th contract
created.  Deploying `GameVotingAdmin` creates an `Unbound` AdminUnit owned by
the signer; `deployProxy` and `upgrade` are the transitions `create` and
`upgrade` of the AdminUnit at the handle's address, called by the signer. -/
def specWorld (addrOf : Nat → Address) : World Chain String Handle Nat where
  getContractFactory name := Chain.serve fun c =>
    if name = "GameVoting" ∨ name = "GameVotingAdmin" then (.ok name, c)
    else (.error ⟨"artifact not found"⟩, c)
  deploy factory := Chain.serve fun c =>
    let a := addrOf c.nonce
    if factory = "GameVotingAdmin" then
      (.ok ⟨factory, a⟩,
        { c with nonce := c.nonce + 1, admins := (a, ⟨c.signer, .Unbound⟩) :: c.admins })
    else
      (.ok ⟨factory, a⟩,
        { c with nonce := c.nonce + 1, implementations := a :: c.implementations })
  waitForDeployment _ := Chain.serve fun c => (.ok (), c)
  getAddress handle := Chain.serve fun c => (.ok handle.address, c)
  attach factory target := fun c => (.ok ⟨factory, target⟩, c)
  deployProxy admin impl := Chain.serve fun c =>
    match c.adminAt admin.address with
    | none => (.error ⟨"no contract at address"⟩, c)
    | some u =>
      match u.create c.signer (addrOf c.nonce) impl with
      | .ok u1 =>
        (.ok c.tick, { c with nonce := c.nonce + 1, admins := (admin.address, u1) :: c.admins })
      | .error e => (.error e, c)
  upgrade admin impl := Chain.serve fun c =>
    match c.adminAt admin.address with
    | none => (.error ⟨"no contract at address"⟩, c)
    | some u =>
      match u.upgrade c.signer impl with
      | .ok u1 => (.ok c.tick, { c with admins := (admin.address, u1) :: c.admins })
      | .error e => (.error e, c)
  wait _ := Chain.serve fun c => (.ok (), c)
  gameVotingProxy admin := Chain.serve fun c =>
    match c.adminAt admin.address with
    | none => (.error ⟨"no contract at address"⟩, c)
    | some u => (.ok u.gameVotingProxy, c)

/-- The addresses of the scenarios of section 8 of the spec, in creation order. -/
def scenarioAddr (n : Nat) : Address :=
  ["0xAA", "0xBB", "0xCC", "0xDD"].getD n "0xFF"

/-- A chain on which nothing has been deployed yet and no request fails. -/
def emptyChain : Chain :=
  { signer := "0x01", nonce := 0, implementations := [], admins := [], tick := 0, faults := [] }

/-! ## Vocabulary of the statements -/

/-- The order in which `scripts/deploy.js` issues its requests. -/
def deployOrder : List CallKind :=
  [.getContractFactory, .deploy, .waitForDeployment, .getAddress,
   .getContractFactory, .deploy, .waitForDeployment, .getAddress,
   .deployProxy, .wait, .gameVotingProxy]

/-- The order in which `scripts/upgrade.js` issues its requests. -/
def upgradeOrder : List CallKind :=
  [.getContractFactory, .deploy, .waitForDeployment, .getAddress,
   .getContractFactory, .attach, .upgrade, .wait, .gameVotingProxy]

/-- The factory the `i`-th request of a transcript returned, if it returned one. -/
def factoryAt {F H T : Type} (done : List (Event F H T)) (i : Nat) : Option F :=
  match done[i]? with
  | some ⟨_, .ok (.factory f)⟩ => some f
  | _ => none

/-- The handle the `i`-th request of a transcript returned, if it returned one. -/
def handleAt {F H T : Type} (done : List (Event F H T)) (i : Nat) : Option H :=
  match done[i]? with
  | some ⟨_, .ok (.handle h)⟩ => some h
  | _ => none

/-- The address the `i`-th request of a transcript returned, if it returned one. -/
def addressAt {F H T : Type} (done : List (Event F H T)) (i : Nat) : Option Address :=
  match done[i]? with
  | some ⟨_, .ok (.address a)⟩ => some a
  | _ => none

/-- The pending transaction the `i`-th request of a transcript returned, if it returned one. -/
def txAt {F H T : Type} (done : List (Event F H T)) (i : Nat) : Option T :=
  match done[i]? with
  | some ⟨_, .ok (.tx t)⟩ => some t
  | _ => none

/-- The request `scripts/deploy.js` makes next, given the requests it has made
so far and what they returned, in the order of section 4.1 of the spec:
implementation deployment (the `GameVoting` factory; `deploy` on that factory;
`waitForDeployment` and `getAddress` on the handle it returned), admin
deployment (the same four on `GameVotingAdmin`), proxy creation (`deployProxy`
on the admin handle with the implementation address; `wait` on the transaction
it returned), proxy read (`gameVotingProxy` on the admin handle).  There is no
next request after a failed one, nor after the eleventh. -/
def deployNext {F H T : Type} (done : List (Event F H T)) : Option (Call F H T) :=
  if done.all (fun ev => ev.ret.isOk) then
    match done.length with
    | 0 => some (.getContractFactory "GameVoting")
    | 1 => (factoryAt done 0).map .deploy
    | 2 => (handleAt done 1).map .waitForDeployment
    | 3 => (handleAt done 1).map .getAddress
    | 4 => some (.getContractFactory "GameVotingAdmin")
    | 5 => (factoryAt done 4).map .deploy
    | 6 => (handleAt done 5).map .waitForDeployment
    | 7 => (handleAt done 5).map .getAddress
    | 8 => (handleAt done 5).bind fun admin => (addressAt done 3).map (.deployProxy admin)
    | 9 => (txAt done 8).map .wait
    | 10 => (handleAt done 5).map .gameVotingProxy
    | _ => none
  else none

/-- A transcript follows a script when each of its requests, in turn, is the
request the script makes next after the ones before it: `rest` continues
`done` according to `next`. -/
def followsScript {F H T : Type} (next : List (Event F H T) → Option (Call F H T)) :
    List (Event F H T) → List (Event F H T) → Prop
  | _, [] => True
  | done, ev :: rest => next done = some ev.call ∧ followsScript next (done ++ [ev]) rest

/-- The lines of the deployment summary. -/
def isManifestLine (line : List String) : Bool :=
  line.head? = some "\nDeployment Summary:" || line.head? = some "Implementation:" ||
  line.head? = some "Admin:" || line.head? = some "Proxy:"

/-- The transcript of a run of `scripts/deploy.js` in which every request succeeds. -/
def deployTranscript {F H T : Type} (f1 : F) (h1 : H) (a1 : Address) (f2 : F) (h2 : H)
    (a2 : Address) (tx : T) (p : Address) : List (Event F H T) :=
  [⟨.getContractFactory "GameVoting", .ok (.factory f1)⟩,
   ⟨.deploy f1, .ok (.handle h1)⟩,
   ⟨.waitForDeployment h1, .ok .unit⟩,
   ⟨.getAddress h1, .ok (.address a1)⟩,
   ⟨.getContractFactory "GameVotingAdmin", .ok (.factory f2)⟩,
   ⟨.deploy f2, .ok (.handle h2)⟩,
   ⟨.waitForDeployment h2, .ok .unit⟩,
   ⟨.getAddress h2, .ok (.address a2)⟩,
   ⟨.deployProxy h2 a1, .ok (.tx tx)⟩,
   ⟨.wait tx, .ok .unit⟩,
   ⟨.gameVotingProxy h2, .ok (.address p)⟩]

/-- What a run of `scripts/deploy.js` prints when every request succeeds. -/
def deployOutput (a1 a2 p : Address) : List (List String) :=
  [["Starting deployment..."],
   ["Deploying GameVoting implementation..."],
   ["GameVoting implementation deployed to:", a1],
   ["Deploying GameVotingAdmin..."],
   ["GameVotingAdmin deployed to:", a2],
   ["Deploying Proxy through Admin..."],
   ["Proxy deployed to:", p],
   ["\nDeployment Summary:"],
   ["-------------------"],
   ["Implementation:", a1],
   ["Admin:", a2],
   ["Proxy:", p],
   ["\nTo interact with the contract, use the proxy address with the GameVoting ABI"]]

/-- The transcript of a run of `scripts/upgrade.js` in which every request succeeds. -/
def upgradeTranscript {F H T : Type} (f1 : F) (h1 : H) (a1 : Address) (f2 : F)
    (adminAddress : Address) (h2 : H) (tx : T) (p : Address) : List (Event F H T) :=
  [⟨.getContractFactory "GameVoting", .ok (.factory f1)⟩,
   ⟨.deploy f1, .ok (.handle h1)⟩,
   ⟨.waitForDeployment h1, .ok .unit⟩,
   ⟨.getAddress h1, .ok (.address a1)⟩,
   ⟨.getContractFactory "GameVotingAdmin", .ok (.factory f2)⟩,
   ⟨.attach f2 adminAddress, .ok (.handle h2)⟩,
   ⟨.upgrade h2 a1, .ok (.tx tx)⟩,
   ⟨.wait tx, .ok .unit⟩,
   ⟨.gameVotingProxy h2, .ok (.address p)⟩]

/-- What a run of `scripts/upgrade.js` prints when every request succeeds. -/
def upgradeOutput (a1 adminAddress p : Address) : List (List String) :=
  [["Starting upgrade process..."],
   ["Deploying new GameVoting implementation..."],
   ["New GameVoting implementation deployed to:", a1],
   ["Upgrading proxy to new implementation..."],
   ["\nUpgrade Summary:"],
   ["----------------"],
   ["New Implementation:", a1],
   ["Admin Contract:", adminAddress],
   ["Proxy Address:", p],
   ["\nUpgrade completed successfully!"]]

/-- The error `scripts/upgrade.js` throws when the admin address is not configured. -/
def configError : JsError := ⟨"Please set ADMIN_CONTRACT_ADDRESS in your environment"⟩


/-- Whether a request belongs to deploying the new implementation in
`scripts/upgrade.js` (lines 14 to 17): the `GameVoting` factory lookup, the
deployment, its confirmation and the address query. -/
def Call.deploysImplementation {F H T : Type} : Call F H T → Bool
  | .getContractFactory name => name == "GameVoting"
  | .deploy _ => true
  | .waitForDeployment _ => true
  | .getAddress _ => true
  | _ => false

/-- The chain right after Scenario A of section 8 of the spec: implementation
`0xAA`, admin `0xBB` bound to proxy `0xCC`. -/
def scenarioChain : Chain :=
  { signer := "0x01", nonce := 3, implementations := ["0xAA"],
    admins := [("0xBB", ⟨"0x01", .Bound ⟨"0xCC", "0xAA"⟩⟩)], tick := 11, faults := [] }

/-- The chain of `scenarioChain` on which the second request from now, the
deployment of the new implementation, meets a transport error. -/
def faultyChain : Chain :=
  { scenarioChain with faults := [12] }

/-- A chain holding implementation `0xAA` and a freshly deployed admin `0xBB`
on which no proxy was created. -/
def unboundChain : Chain :=
  { signer := "0x01", nonce := 2, implementations := ["0xAA"],
    admins := [("0xBB", ⟨"0x01", .Unbound⟩)], tick := 8, faults := [] }

/-- A chain on which the sixth request, the deployment of the admin in
`scripts/deploy.js`, meets a transport error. -/
def adminFaultChain : Chain :=
  { emptyChain with faults := [5] }

/-- A collaborator whose admin contract moves its proxy to a new address on
every `upgrade`.  Its state is the proxy address the admin currently holds. -/
def movingProxyWorld : World Address Unit Unit Unit where
  getContractFactory _ s := (.ok (), s)
  deploy _ s := (.ok (), s)
  waitForDeployment _ s := (.ok (), s)
  getAddress _ s := (.ok "0xDD", s)
  attach _ _ s := (.ok (), s)
  deployProxy _ _ s := (.ok (), s)
  upgrade _ _ _ := (.ok (), "0xEE")
  wait _ s := (.ok (), s)
  gameVotingProxy _ s := (.ok s, s)

/-! ## How the scripts unfold -/

/-- A request followed by the rest of the script: the rest runs on the value returned, or the
run stops with the error thrown. -/
theorem perform_bind {σ F H T α β : Type} (c : Call F H T) (inj : α → Ret F H T)
    (op : σ → Res α × σ) (f : α → Run σ F H T β) (st : RunState σ F H T) :
    (perform c inj op >>= f) st =
      match op st.world with
      | (.ok a, w) => f a { st with world := w, trace := st.trace ++ [⟨c, .ok (inj a)⟩] }
      | (.error e, w) =>
        (.error e, { st with world := w, trace := st.trace ++ [⟨c, .error e⟩] }) := by
  show Run.bind _ _ _ = _
  unfold Run.bind perform
  rcases op st.world with ⟨r, w⟩
  cases r <;> rfl

/-- A `console.log` followed by the rest of the script. -/
theorem consoleLog_bind {σ F H T β : Type} (args : List String) (f : Unit → Run σ F H T β)
    (st : RunState σ F H T) :
    (consoleLog args >>= f) st = f () { st with stdout := st.stdout ++ [args] } := rfl

/-- Nothing runs after a `throw`. -/
theorem jsThrow_bind {σ F H T α β : Type} (e : JsError) (f : α → Run σ F H T β)
    (st : RunState σ F H T) : (jsThrow e >>= f) st = (.error e, st) := rfl

/-- The guard that does not throw leaves the state alone. -/
theorem pure_bind_run {σ F H T α β : Type} (a : α) (f : α → Run σ F H T β)
    (st : RunState σ F H T) : (pure a >>= f) st = f a st := rfl

/-- A request that always returns the same value and leaves the collaborator state alone. -/
theorem perform_const_bind {σ F H T α β : Type} (call : Call F H T) (inj : α → Ret F H T) (v : α)
    (f : α → Run σ F H T β) (st : RunState σ F H T) :
    (perform call inj (fun c => (.ok v, c)) >>= f) st =
      f v { st with trace := st.trace ++ [⟨call, .ok (inj v)⟩] } := rfl

/-- A successful run of `scripts/deploy.js` made its eleven requests in order,
each on the values the earlier ones returned. -/
theorem deployRun_ok_inv {σ F H T : Type} (W : World σ F H T) (s : σ)
    (hok : (deployRun W s).1 = .ok ()) :
    ∃ f1 s1 h1 s2 s3 a1 s4 f2 s5 h2 s6 s7 a2 s8 tx s9 s10 p s11,
      W.getContractFactory "GameVoting" s = (.ok f1, s1) ∧
      W.deploy f1 s1 = (.ok h1, s2) ∧
      W.waitForDeployment h1 s2 = (.ok (), s3) ∧
      W.getAddress h1 s3 = (.ok a1, s4) ∧
      W.getContractFactory "GameVotingAdmin" s4 = (.ok f2, s5) ∧
      W.deploy f2 s5 = (.ok h2, s6) ∧
      W.waitForDeployment h2 s6 = (.ok (), s7) ∧
      W.getAddress h2 s7 = (.ok a2, s8) ∧
      W.deployProxy h2 a1 s8 = (.ok tx, s9) ∧
      W.wait tx s9 = (.ok (), s10) ∧
      W.gameVotingProxy h2 s10 = (.ok p, s11) ∧
      (deployRun W s).2 = ⟨s11, deployTranscript f1 h1 a1 f2 h2 a2 tx p, deployOutput a1 a2 p⟩ := by
  generalize hrun : deployRun W s = out at *
  simp only [deployRun, deployMain, perform_bind, consoleLog_bind, consoleLog] at hrun
  repeat' split at hrun
  all_goals subst hrun
  all_goals simp only [reduceCtorEq] at hok
  exact ⟨_, _, _, _, _, _, _, _, _, _, _, _, _, _, _, _, _, _, _, ‹_›, ‹_›, ‹_›, ‹_›, ‹_›, ‹_›,
    ‹_›, ‹_›, ‹_›, ‹_›, ‹_›, rfl⟩

/-- A successful run of `scripts/upgrade.js` had its admin address configured and made its nine
requests in order, each on the values the earlier ones returned. -/
theorem upgradeRun_ok_inv {σ F H T : Type} (W : World σ F H T) (env : Option String) (s : σ)
    (hok : (upgradeRun W env s).1 = .ok ()) :
    ∃ adminAddress f1 s1 h1 s2 s3 a1 s4 f2 s5 h2 s6 tx s7 s8 p s9,
      env = some adminAddress ∧ adminAddress ≠ "" ∧
      W.getContractFactory "GameVoting" s = (.ok f1, s1) ∧
      W.deploy f1 s1 = (.ok h1, s2) ∧
      W.waitForDeployment h1 s2 = (.ok (), s3) ∧
      W.getAddress h1 s3 = (.ok a1, s4) ∧
      W.getContractFactory "GameVotingAdmin" s4 = (.ok f2, s5) ∧
      W.attach f2 adminAddress s5 = (.ok h2, s6) ∧
      W.upgrade h2 a1 s6 = (.ok tx, s7) ∧
      W.wait tx s7 = (.ok (), s8) ∧
      W.gameVotingProxy h2 s8 = (.ok p, s9) ∧
      (upgradeRun W env s).2 =
        ⟨s9, upgradeTranscript f1 h1 a1 f2 adminAddress h2 tx p, upgradeOutput a1 adminAddress p⟩ := by
  generalize hrun : upgradeRun W env s = out at *
  simp only [upgradeRun, upgradeMain, consoleLog_bind] at hrun
  split at hrun
  · simp only [jsThrow_bind] at hrun
    subst hrun
    simp only [reduceCtorEq] at hok
  · rename_i hfalsy
    cases env with
    | none => simp [isFalsy] at hfalsy
    | some a =>
      have ha : a ≠ "" := by simpa [isFalsy] using hfalsy
      simp only [pure_bind_run, perform_bind, consoleLog_bind, consoleLog, Option.getD_some] at hrun
      repeat' split at hrun
      all_goals subst hrun
      all_goals simp only [reduceCtorEq] at hok
      exact ⟨a, _, _, _, _, _, _, _, _, _, _, _, _, _, _, _, _, rfl, ha, ‹_›, ‹_›, ‹_›, ‹_›, ‹_›,
        ‹_›, ‹_›, ‹_›, ‹_›, rfl⟩

/-- For any collaborator: when a request of the implementation deployment of
`scripts/upgrade.js` fails, the run fails with that error, no `attach` and no
`upgrade` request is in the transcript, and the collaborator state is the one
the failing request left, reached through the earlier requests of the
implementation deployment only. -/
theorem upgradeRun_implementation_failure_inv {σ F H T : Type} (W : World σ F H T)
    (env : Option String) (s : σ) (ev : Event F H T) (e : JsError)
    (hmem : ev ∈ (upgradeRun W env s).2.trace)
    (hev : ev.ret = .error e) (himpl : ev.call.deploysImplementation = true) :
    (upgradeRun W env s).1 = .error e ∧
    (∀ x ∈ (upgradeRun W env s).2.trace, x.call.kind ≠ .attach ∧ x.call.kind ≠ .upgrade) ∧
    ((∃ s1, W.getContractFactory "GameVoting" s = (.error e, s1) ∧
        (upgradeRun W env s).2.world = s1) ∨
     (∃ f1 s1 s2, W.getContractFactory "GameVoting" s = (.ok f1, s1) ∧
        W.deploy f1 s1 = (.error e, s2) ∧ (upgradeRun W env s).2.world = s2) ∨
     (∃ f1 s1 h1 s2 s3, W.getContractFactory "GameVoting" s = (.ok f1, s1) ∧
        W.deploy f1 s1 = (.ok h1, s2) ∧ W.waitForDeployment h1 s2 = (.error e, s3) ∧
        (upgradeRun W env s).2.world = s3) ∨
     (∃ f1 s1 h1 s2 s3 s4, W.getContractFactory "GameVoting" s = (.ok f1, s1) ∧
        W.deploy f1 s1 = (.ok h1, s2) ∧ W.waitForDeployment h1 s2 = (.ok (), s3) ∧
        W.getAddress h1 s3 = (.error e, s4) ∧ (upgradeRun W env s).2.world = s4)) := by
  generalize hrun : upgradeRun W env s = out at *
  simp only [upgradeRun, upgradeMain, consoleLog_bind] at hrun
  split at hrun
  · simp only [jsThrow_bind] at hrun
    subst hrun
    simp at hmem
  · simp only [pure_bind_run, perform_bind, consoleLog_bind, consoleLog] at hrun
    repeat' split at hrun
    all_goals subst hrun
    all_goals simp only [List.nil_append, List.singleton_append, List.cons_append,
      List.mem_cons, List.mem_singleton, List.not_mem_nil, or_false] at hmem
    all_goals
      repeat
        rcases hmem with h | hmem
        · subst h
          simp [Call.deploysImplementation] at hev himpl
    all_goals (try (subst hmem; simp [Call.deploysImplementation] at hev himpl))
    all_goals subst hev
    all_goals refine ⟨rfl, by simp [Call.kind], ?_⟩
    · exact Or.inr (Or.inr (Or.inr ⟨_, _, _, _, _, _, ‹_›, ‹_›, ‹_›, ‹_›, rfl⟩))
    · exact Or.inr (Or.inr (Or.inl ⟨_, _, _, _, _, ‹_›, ‹_›, ‹_›, rfl⟩))
    · exact Or.inr (Or.inl ⟨_, _, _, ‹_›, ‹_›, rfl⟩)
    · exact Or.inl ⟨_, ‹_›, rfl⟩

/-- The top level of `scripts/deploy.js` in terms of `deployRun`. -/
theorem runScript_deployMain {σ F H T : Type} (W : World σ F H T) (s : σ) :
    runScript (deployMain W) s =
      match deployRun W s with
      | (.ok _, st) => ⟨0, [], st⟩
      | (.error error, st) => ⟨1, [error], st⟩ := rfl

/-- The top level of `scripts/upgrade.js` in terms of `upgradeRun`. -/
theorem runScript_upgradeMain {σ F H T : Type} (W : World σ F H T) (env : Option String) (s : σ) :
    runScript (upgradeMain W env) s =
      match upgradeRun W env s with
      | (.ok _, st) => ⟨0, [], st⟩
      | (.error error, st) => ⟨1, [error], st⟩ := rfl

/-- The exit contract of `scripts/deploy.js`. -/
theorem deploy_exit_code {σ F H T : Type} (W : World σ F H T) (s : σ) :
    ((runScript (deployMain W) s).code = 0 ↔ (deployRun W s).1 = .ok ()) ∧
    ((runScript (deployMain W) s).code = 0 ↔
      ∀ ev ∈ (runScript (deployMain W) s).final.trace, ev.ret.isOk = true) ∧
    (∀ e, (deployRun W s).1 = .error e →
      (runScript (deployMain W) s).code = 1 ∧ (runScript (deployMain W) s).stderr = [e]) ∧
    (∀ ev e, ev ∈ (runScript (deployMain W) s).final.trace → ev.ret = .error e →
      (runScript (deployMain W) s).code = 1 ∧ (runScript (deployMain W) s).stderr = [e]) := by
  rw [runScript_deployMain]
  generalize hrun : deployRun W s = out at *
  simp only [deployRun, deployMain, perform_bind, consoleLog_bind, consoleLog] at hrun
  repeat' split at hrun
  all_goals subst hrun
  all_goals simp [Res.isOk]
  all_goals (intro ev e hmem hev)
  all_goals (repeat (rcases hmem with h | hmem; · (subst h; simp at hev)))
  all_goals (subst hmem; simp_all)

/-- The exit contract of `scripts/upgrade.js`. -/
theorem upgrade_exit_code {σ F H T : Type} (W : World σ F H T) (env : Option String) (s : σ) :
    ((runScript (upgradeMain W env) s).code = 0 ↔ (upgradeRun W env s).1 = .ok ()) ∧
    ((runScript (upgradeMain W env) s).code = 0 ↔
      isFalsy env = false ∧
        ∀ ev ∈ (runScript (upgradeMain W env) s).final.trace, ev.ret.isOk = true) ∧
    (∀ e, (upgradeRun W env s).1 = .error e →
      (runScript (upgradeMain W env) s).code = 1 ∧
        (runScript (upgradeMain W env) s).stderr = [e]) ∧
    (∀ ev e, ev ∈ (runScript (upgradeMain W env) s).final.trace → ev.ret = .error e →
      (runScript (upgradeMain W env) s).code = 1 ∧
        (runScript (upgradeMain W env) s).stderr = [e]) ∧
    (isFalsy env = true →
      (runScript (upgradeMain W env) s).code = 1 ∧
        (runScript (upgradeMain W env) s).stderr = [configError]) := by
  rw [runScript_upgradeMain]
  generalize hrun : upgradeRun W env s = out at *
  simp only [upgradeRun, upgradeMain, consoleLog_bind] at hrun
  split at hrun
  · rename_i hfalsy
    simp only [jsThrow_bind] at hrun
    subst hrun
    simp [hfalsy, configError]
  · rename_i hfalsy
    simp only [pure_bind_run, perform_bind, consoleLog_bind, consoleLog] at hrun
    repeat' split at hrun
    all_goals subst hrun
    all_goals simp [Res.isOk, hfalsy]
    all_goals (intro ev e hmem hev)
    all_goals (repeat (rcases hmem with h | hmem; · (subst h; simp at hev)))
    all_goals (subst hmem; simp_all)

/-! ## What the chain model answers -/

/-- A request the chain client answered was not listed in `faults`. -/
theorem serve_ok {α : Type} (op : Chain → Res α × Chain) (c c1 : Chain) (a : α)
    (h : Chain.serve op c = (.ok a, c1)) :
    c.tick ∉ c.faults ∧ op c.next = (.ok a, c1) := by
  unfold Chain.serve at h
  split at h
  · simp at h
  · exact ⟨‹_›, h⟩

/-- A request the chain client failed was listed in `faults`, or the operation itself failed. -/
theorem serve_error {α : Type} (op : Chain → Res α × Chain) (c c1 : Chain) (e : JsError)
    (h : Chain.serve op c = (.error e, c1)) :
    (c.tick ∈ c.faults ∧ c1 = c.next) ∨ (c.tick ∉ c.faults ∧ op c.next = (.error e, c1)) := by
  unfold Chain.serve at h
  split at h
  · left
    simp_all
  · right
    exact ⟨‹_›, h⟩

/-- A request to the chain client followed by the rest of the script. -/
theorem perform_serve_bind {α β : Type} (call : Call String Handle Nat)
    (inj : α → Ret String Handle Nat) (g : Chain → Res α × Chain)
    (f : α → Run Chain String Handle Nat β) (st : RunState Chain String Handle Nat) :
    (perform call inj (Chain.serve g) >>= f) st =
      if st.world.tick ∈ st.world.faults then
        (.error ⟨"transport error"⟩,
          { st with world := st.world.next,
                    trace := st.trace ++ [⟨call, .error ⟨"transport error"⟩⟩] })
      else
        match g st.world.next with
        | (.ok a, w) => f a { st with world := w, trace := st.trace ++ [⟨call, .ok (inj a)⟩] }
        | (.error e, w) =>
          (.error e, { st with world := w, trace := st.trace ++ [⟨call, .error e⟩] }) := by
  rw [perform_bind]
  unfold Chain.serve
  by_cases h : st.world.tick ∈ st.world.faults
  · rw [if_pos h, if_pos h]
  · rw [if_neg h, if_neg h]
    rcases g st.world.next with ⟨_ | _, _⟩ <;> rfl

/-- The factory the chain model returns is the contract type name. -/
theorem specWorld_getContractFactory_ok {addrOf : Nat → Address} {name f : String} {c c1 : Chain}
    (h : (specWorld addrOf).getContractFactory name c = (.ok f, c1)) :
    f = name ∧ c1 = c.next := by
  simp only [specWorld] at h
  have h2 := (serve_ok _ _ _ _ h).2
  split at h2 <;> simp_all

/-- A deployment on the chain model creates the contract at the next address. -/
theorem specWorld_deploy_ok {addrOf : Nat → Address} {f : String} {h1 : Handle} {c c1 : Chain}
    (h : (specWorld addrOf).deploy f c = (.ok h1, c1)) :
    h1 = ⟨f, addrOf c.nonce⟩ ∧
    c1 = (if f = "GameVotingAdmin" then
        { c.next with nonce := c.nonce + 1,
                      admins := (addrOf c.nonce, ⟨c.signer, .Unbound⟩) :: c.admins }
      else { c.next with nonce := c.nonce + 1,
                         implementations := addrOf c.nonce :: c.implementations }) := by
  simp only [specWorld] at h
  have h2 := (serve_ok _ _ _ _ h).2
  simp only [Chain.next] at h2 ⊢
  split at h2 <;> simp_all

/-- Confirming a deployment changes nothing but the request count. -/
theorem specWorld_waitForDeployment_ok {addrOf : Nat → Address} {h1 : Handle} {c c1 : Chain}
    (h : (specWorld addrOf).waitForDeployment h1 c = (.ok (), c1)) : c1 = c.next := by
  simp only [specWorld] at h
  have h2 := (serve_ok _ _ _ _ h).2
  simp_all

/-- The address of a handle is the address it targets. -/
theorem specWorld_getAddress_ok {addrOf : Nat → Address} {h1 : Handle} {a : Address} {c c1 : Chain}
    (h : (specWorld addrOf).getAddress h1 c = (.ok a, c1)) : a = h1.address ∧ c1 = c.next := by
  simp only [specWorld] at h
  have h2 := (serve_ok _ _ _ _ h).2
  simp_all

/-- Attaching returns a handle on the given address and sends nothing to the chain. -/
theorem specWorld_attach_ok {addrOf : Nat → Address} {f : String} {a : Address} {h1 : Handle}
    {c c1 : Chain} (h : (specWorld addrOf).attach f a c = (.ok h1, c1)) :
    h1 = ⟨f, a⟩ ∧ c1 = c := by
  simp [specWorld] at h
  simp [h]

/-- Confirming a transaction changes nothing but the request count. -/
theorem specWorld_wait_ok {addrOf : Nat → Address} {tx : Nat} {c c1 : Chain}
    (h : (specWorld addrOf).wait tx c = (.ok (), c1)) : c1 = c.next := by
  simp only [specWorld] at h
  have h2 := (serve_ok _ _ _ _ h).2
  simp_all

/-- An `upgrade` that succeeds found the admin `Bound` and owned by the signer, and rewrote the
implementation reference only. -/
theorem specWorld_upgrade_ok {addrOf : Nat → Address} {h1 : Handle} {impl : Address} {tx : Nat}
    {c c1 : Chain} (h : (specWorld addrOf).upgrade h1 impl c = (.ok tx, c1)) :
    ∃ proxy, c.adminAt h1.address = some ⟨c.signer, .Bound proxy⟩ ∧
      tx = c.tick + 1 ∧
      c1 = { c.next with admins :=
        (h1.address, ⟨c.signer, .Bound { proxy with currentImplementation := impl }⟩) :: c.admins } := by
  simp only [specWorld] at h
  have h2 := (serve_ok _ _ _ _ h).2
  simp only [Chain.next, Chain.adminAt] at h2 ⊢
  cases hu : List.lookup h1.address c.admins with
  | none => simp [hu] at h2
  | some u =>
    rcases u with ⟨owner, st⟩
    by_cases hown : c.signer = owner
    · cases st with
      | Unbound => simp [hu, AdminUnit.upgrade, hown] at h2
      | Bound proxy =>
        simp [hu, AdminUnit.upgrade, hown] at h2
        exact ⟨proxy, by simp [hown], h2.1.symm, by simp [← h2.2, hown]⟩
    · simp [hu, AdminUnit.upgrade, hown] at h2

/-- A `deployProxy` that succeeds found the admin `Unbound` and owned by the signer, and bound
it to a proxy at the next address. -/
theorem specWorld_deployProxy_ok {addrOf : Nat → Address} {h1 : Handle} {impl : Address} {tx : Nat}
    {c c1 : Chain} (h : (specWorld addrOf).deployProxy h1 impl c = (.ok tx, c1)) :
    c.adminAt h1.address = some ⟨c.signer, .Unbound⟩ ∧
      tx = c.tick + 1 ∧
      c1 = { c.next with nonce := c.nonce + 1, admins :=
        (h1.address, ⟨c.signer, .Bound ⟨addrOf c.nonce, impl⟩⟩) :: c.admins } := by
  simp only [specWorld] at h
  have h2 := (serve_ok _ _ _ _ h).2
  simp only [Chain.next, Chain.adminAt] at h2 ⊢
  cases hu : List.lookup h1.address c.admins with
  | none => simp [hu] at h2
  | some u =>
    rcases u with ⟨owner, st⟩
    by_cases hown : c.signer = owner
    · cases st with
      | Bound proxy => simp [hu, AdminUnit.create, hown] at h2
      | Unbound =>
        simp [hu, AdminUnit.create, hown] at h2
        exact ⟨by simp [hown], h2.1.symm, by simp [← h2.2, hown]⟩
    · simp [hu, AdminUnit.create, hown] at h2

/-- A proxy read that succeeds reports the proxy address of the admin at the handle. -/
theorem specWorld_gameVotingProxy_ok {addrOf : Nat → Address} {h1 : Handle} {p : Address}
    {c c1 : Chain} (h : (specWorld addrOf).gameVotingProxy h1 c = (.ok p, c1)) :
    ∃ u, c.adminAt h1.address = some u ∧ p = u.gameVotingProxy ∧ c1 = c.next := by
  simp only [specWorld] at h
  have h2 := (serve_ok _ _ _ _ h).2
  simp only [Chain.next, Chain.adminAt] at h2 ⊢
  split at h2
  · simp at h2
  · rename_i u hu
    refine ⟨u, ?_, ?_, ?_⟩ <;> simp_all

/-- A lookup of a compiled contract fails only by a transport fault. -/
theorem specWorld_getContractFactory_error {addrOf : Nat → Address} {name : String} {e : JsError}
    {c c1 : Chain} (h : (specWorld addrOf).getContractFactory name c = (.error e, c1))
    (hname : name = "GameVoting" ∨ name = "GameVotingAdmin") :
    c.tick ∈ c.faults ∧ c1 = c.next := by
  simp only [specWorld] at h
  rcases serve_error _ _ _ _ h with h2 | ⟨-, h2⟩
  · exact h2
  · simp [hname] at h2

/-- A deployment fails only by a transport fault, and then deploys nothing. -/
theorem specWorld_deploy_error {addrOf : Nat → Address} {f : String} {e : JsError}
    {c c1 : Chain} (h : (specWorld addrOf).deploy f c = (.error e, c1)) :
    c.tick ∈ c.faults ∧ c1 = c.next := by
  simp only [specWorld] at h
  rcases serve_error _ _ _ _ h with h2 | ⟨-, h2⟩
  · exact h2
  · split at h2 <;> simp at h2

/-- A confirmation fails only by a transport fault. -/
theorem specWorld_waitForDeployment_error {addrOf : Nat → Address} {h1 : Handle} {e : JsError}
    {c c1 : Chain} (h : (specWorld addrOf).waitForDeployment h1 c = (.error e, c1)) :
    c.tick ∈ c.faults ∧ c1 = c.next := by
  simp only [specWorld] at h
  rcases serve_error _ _ _ _ h with h2 | ⟨-, h2⟩
  · exact h2
  · simp at h2

/-- An address query fails only by a transport fault. -/
theorem specWorld_getAddress_error {addrOf : Nat → Address} {h1 : Handle} {e : JsError}
    {c c1 : Chain} (h : (specWorld addrOf).getAddress h1 c = (.error e, c1)) :
    c.tick ∈ c.faults ∧ c1 = c.next := by
  simp only [specWorld] at h
  rcases serve_error _ _ _ _ h with h2 | ⟨-, h2⟩
  · exact h2
  · simp at h2

/-! ## The missing admin address -/

/-- C1: a run of `scripts/upgrade.js` in which `ADMIN_CONTRACT_ADDRESS` is absent
or the empty string fails with the configuration error, and its transcript of
collaborator requests is empty: no factory was requested, nothing was deployed,
no transaction was submitted, and the collaborator state is what it was. -/
theorem upgrade_without_admin_address_makes_no_request {σ F H T : Type} (W : World σ F H T)
    (env : Option String) (s : σ) (henv : env = none ∨ env = some "") :
    (upgradeRun W env s).1 = .error configError ∧
    (upgradeRun W env s).2.trace = [] ∧
    (upgradeRun W env s).2.world = s := by
  rcases henv with rfl | rfl <;> exact ⟨rfl, rfl, rfl⟩

/-- Witness of C1 (Scenario C of the spec): the upgrade is run with no admin address configured. -/
theorem upgrade_without_admin_address_witness :
    ((none : Option String) = none ∨ (none : Option String) = some "") ∧
    (upgradeRun (specWorld scenarioAddr) none scenarioChain).1 = .error configError ∧
    (upgradeRun (specWorld scenarioAddr) none scenarioChain).2.trace = [] ∧
    (upgradeRun (specWorld scenarioAddr) none scenarioChain).2.world = scenarioChain :=
  ⟨Or.inl rfl,
    upgrade_without_admin_address_makes_no_request (specWorld scenarioAddr) none scenarioChain
      (Or.inl rfl)⟩

/-! ## Address stability of the upgrade -/

/-- C2: a successful run of `scripts/upgrade.js` against an admin at address
`a` that is `Bound` with proxy address `p` leaves that admin `Bound` with the
same proxy address `p`, and the proxy's current implementation is the address
given to the implementation deployed in this run; the transcript shows that
the argument of `upgrade` is the very address `getAddress` returned for the
new implementation, and that the address read back is `p`. -/
theorem upgrade_keeps_proxy_address_and_repoints (addrOf : Nat → Address) (c : Chain)
    (a owner p i : Address)
    (hbound : c.adminAt a = some ⟨owner, .Bound ⟨p, i⟩⟩)
    (hok : (upgradeRun (specWorld addrOf) (some a) c).1 = .ok ()) :
    (upgradeRun (specWorld addrOf) (some a) c).2.world.adminAt a
        = some ⟨owner, .Bound ⟨p, addrOf c.nonce⟩⟩ ∧
    addrOf c.nonce ∈ (upgradeRun (specWorld addrOf) (some a) c).2.world.implementations ∧
    (upgradeRun (specWorld addrOf) (some a) c).2.trace
        = upgradeTranscript "GameVoting" ⟨"GameVoting", addrOf c.nonce⟩ (addrOf c.nonce)
            "GameVotingAdmin" a ⟨"GameVotingAdmin", a⟩ (c.tick + 6) p := by
  obtain ⟨a', f1, s1, h1, s2, s3, a1, s4, f2, s5, h2, s6, tx, s7, s8, p', s9, henv, ha, e1, e2, e3,
    e4, e5, e6, e7, e8, e9, hout⟩ := upgradeRun_ok_inv _ _ _ hok
  cases henv
  rw [hout]
  obtain ⟨rfl, rfl⟩ := specWorld_getContractFactory_ok e1
  obtain ⟨rfl, rfl⟩ := specWorld_deploy_ok e2
  obtain rfl := specWorld_waitForDeployment_ok e3
  obtain ⟨rfl, rfl⟩ := specWorld_getAddress_ok e4
  obtain ⟨rfl, rfl⟩ := specWorld_getContractFactory_ok e5
  obtain ⟨rfl, rfl⟩ := specWorld_attach_ok e6
  obtain ⟨proxy, hadm, rfl, rfl⟩ := specWorld_upgrade_ok e7
  obtain rfl := specWorld_wait_ok e8
  obtain ⟨u, hu, rfl, rfl⟩ := specWorld_gameVotingProxy_ok e9
  clear e1 e2 e3 e4 e5 e6 e7 e8 e9 hout hok
  simp [Chain.next, Chain.adminAt] at hadm hu hbound ⊢
  rw [hbound] at hadm
  simp only [Option.some.injEq, AdminUnit.mk.injEq, AdminState.Bound.injEq] at hadm
  obtain ⟨rfl, rfl⟩ := hadm
  subst hu
  simp [AdminUnit.gameVotingProxy]

/-- Witness of C2 (Scenario B of the spec): admin `0xBB` bound to proxy `0xCC` on
implementation `0xAA` is upgraded to the new implementation `0xDD`. -/
theorem upgrade_keeps_proxy_address_witness :
    scenarioChain.adminAt "0xBB" = some ⟨"0x01", .Bound ⟨"0xCC", "0xAA"⟩⟩ ∧
    (upgradeRun (specWorld scenarioAddr) (some "0xBB") scenarioChain).1 = .ok () ∧
    (upgradeRun (specWorld scenarioAddr) (some "0xBB") scenarioChain).2.world.adminAt "0xBB"
      = some ⟨"0x01", .Bound ⟨"0xCC", "0xDD"⟩⟩ :=
  ⟨by decide, by decide,
    (upgrade_keeps_proxy_address_and_repoints scenarioAddr scenarioChain "0xBB" "0x01" "0xCC"
      "0xAA" (by decide) (by decide)).1⟩

/-! ## The binding made by the deployment -/

/-- C3: a successful run of `scripts/deploy.js` on the chain model invokes
`deployProxy` with the address `getAddress` returned for the implementation
deployed first, and afterwards the admin deployed in the run is `Bound` to a
proxy whose current implementation is the implementation address printed in
the summary. -/
theorem deploy_binds_proxy_to_deployed_implementation (addrOf : Nat → Address) (c : Chain)
    (hok : (deployRun (specWorld addrOf) c).1 = .ok ()) :
    (deployRun (specWorld addrOf) c).2.trace
        = deployTranscript "GameVoting" ⟨"GameVoting", addrOf c.nonce⟩ (addrOf c.nonce)
            "GameVotingAdmin" ⟨"GameVotingAdmin", addrOf (c.nonce + 1)⟩ (addrOf (c.nonce + 1))
            (c.tick + 9) (addrOf (c.nonce + 2)) ∧
    (deployRun (specWorld addrOf) c).2.stdout
        = deployOutput (addrOf c.nonce) (addrOf (c.nonce + 1)) (addrOf (c.nonce + 2)) ∧
    (deployRun (specWorld addrOf) c).2.world.adminAt (addrOf (c.nonce + 1))
        = some ⟨c.signer, .Bound ⟨addrOf (c.nonce + 2), addrOf c.nonce⟩⟩ ∧
    addrOf c.nonce ∈ (deployRun (specWorld addrOf) c).2.world.implementations := by
  obtain ⟨f1, s1, h1, s2, s3, a1, s4, f2, s5, h2, s6, s7, a2, s8, tx, s9, s10, p, s11, e1, e2, e3,
    e4, e5, e6, e7, e8, e9, e10, e11, hout⟩ := deployRun_ok_inv _ _ hok
  rw [hout]
  obtain ⟨rfl, rfl⟩ := specWorld_getContractFactory_ok e1
  obtain ⟨rfl, rfl⟩ := specWorld_deploy_ok e2
  obtain rfl := specWorld_waitForDeployment_ok e3
  obtain ⟨rfl, rfl⟩ := specWorld_getAddress_ok e4
  obtain ⟨rfl, rfl⟩ := specWorld_getContractFactory_ok e5
  obtain ⟨rfl, rfl⟩ := specWorld_deploy_ok e6
  obtain rfl := specWorld_waitForDeployment_ok e7
  obtain ⟨rfl, rfl⟩ := specWorld_getAddress_ok e8
  obtain ⟨-, rfl, rfl⟩ := specWorld_deployProxy_ok e9
  obtain rfl := specWorld_wait_ok e10
  obtain ⟨u, hu, rfl, rfl⟩ := specWorld_gameVotingProxy_ok e11
  clear e1 e2 e3 e4 e5 e6 e7 e8 e9 e10 e11 hout hok
  simp [Chain.next, Chain.adminAt] at hu ⊢
  subst hu
  simp [AdminUnit.gameVotingProxy]

/-- Witness of C3 (Scenario A of the spec): on an empty chain the run deploys
implementation `0xAA` and admin `0xBB`, which creates proxy `0xCC`. -/
theorem deploy_binds_proxy_witness :
    (deployRun (specWorld scenarioAddr) emptyChain).1 = .ok () ∧
    (deployRun (specWorld scenarioAddr) emptyChain).2.world.adminAt "0xBB"
      = some ⟨"0x01", .Bound ⟨"0xCC", "0xAA"⟩⟩ ∧
    (deployRun (specWorld scenarioAddr) emptyChain).2.stdout
      = deployOutput "0xAA" "0xBB" "0xCC" :=
  have h := deploy_binds_proxy_to_deployed_implementation scenarioAddr emptyChain (by decide)
  ⟨by decide, h.2.2.1, h.2.1⟩

/-! ## The proxy address read back by the upgrade -/

/-- C4, counterexample: against an admin that holds proxy `0xCC` before the
upgrade and reports `0xEE` after it, `scripts/upgrade.js` reads the proxy
address once, after the repoint, gets the different address, and still
completes with exit code 0. -/
theorem upgrade_completes_though_proxy_address_changed :
    (movingProxyWorld.gameVotingProxy () "0xCC").1 = .ok "0xCC" ∧
    (⟨.gameVotingProxy (), .ok (.address "0xEE")⟩ : Event Unit Unit Unit)
      ∈ (upgradeRun movingProxyWorld (some "0xBB") "0xCC").2.trace ∧
    ("0xEE" : Address) ≠ "0xCC" ∧
    ((upgradeRun movingProxyWorld (some "0xBB") "0xCC").2.trace.filter
      (fun x => x.call.kind = .gameVotingProxy)).length = 1 ∧
    (upgradeRun movingProxyWorld (some "0xBB") "0xCC").1 = .ok () ∧
    (runScript (upgradeMain movingProxyWorld (some "0xBB")) "0xCC").code = 0 := by
  decide

/-- C4, as amended: `scripts/upgrade.js` reads the proxy address from the admin
at most once, as its last request, right after `wait` on the upgrade
transaction has returned, so never before the repoint; and whenever that read
returns an address `p`, whatever `p` is, the run completes with exit code 0,
having printed `p` as the proxy address followed by the success line. -/
theorem upgrade_reads_proxy_once_after_repoint {σ F H T : Type} (W : World σ F H T)
    (env : Option String) (s : σ) :
    ((upgradeRun W env s).2.trace.filter (fun x => x.call.kind = .gameVotingProxy)).length ≤ 1 ∧
    (∀ ev ∈ (upgradeRun W env s).2.trace, ev.call.kind = .gameVotingProxy →
      ∃ h a1 tx, (upgradeRun W env s).2.trace.drop 6 =
        [⟨.upgrade h a1, .ok (.tx tx)⟩, ⟨.wait tx, .ok .unit⟩, ev]) ∧
    (∀ h p, ⟨.gameVotingProxy h, .ok (.address p)⟩ ∈ (upgradeRun W env s).2.trace →
      (upgradeRun W env s).1 = .ok () ∧
      (runScript (upgradeMain W env) s).code = 0 ∧
      (upgradeRun W env s).2.stdout.drop 8 =
        [["Proxy Address:", p], ["\nUpgrade completed successfully!"]]) := by
  rw [runScript_upgradeMain]
  generalize hrun : upgradeRun W env s = out at *
  simp only [upgradeRun, upgradeMain, consoleLog_bind] at hrun
  split at hrun
  · simp only [jsThrow_bind] at hrun
    subst hrun
    simp
  · simp only [pure_bind_run, perform_bind, consoleLog_bind, consoleLog] at hrun
    repeat' split at hrun
    all_goals subst hrun
    all_goals simp [Call.kind, List.filter]

/-- An instance of C4 as amended: against the admin of `movingProxyWorld` the
read returns `0xEE`, and the run completes having printed it. -/
theorem upgrade_reads_proxy_once_witness :
    (upgradeRun movingProxyWorld (some "0xBB") "0xCC").1 = .ok () ∧
    (runScript (upgradeMain movingProxyWorld (some "0xBB")) "0xCC").code = 0 ∧
    (upgradeRun movingProxyWorld (some "0xBB") "0xCC").2.stdout.drop 8 =
      [["Proxy Address:", "0xEE"], ["\nUpgrade completed successfully!"]] :=
  (upgrade_reads_proxy_once_after_repoint movingProxyWorld (some "0xBB") "0xCC").2.2 () "0xEE"
    (by decide)

/-! ## A failed implementation deployment -/

/-- C5: in a run of `scripts/upgrade.js` on the chain model in which a request
of the implementation deployment (the `GameVoting` factory lookup, `deploy`,
`waitForDeployment` or `getAddress`) fails with error `e`, the run fails with
`e`, the transcript holds no `attach` and no `upgrade` request, and every
admin of the chain, with its bound proxy address and that proxy's current
implementation, is what it was before the run. -/
theorem upgrade_failed_deployment_leaves_admin_untouched (addrOf : Nat → Address) (c : Chain)
    (env : Option String) (ev : Event String Handle Nat) (e : JsError)
    (hmem : ev ∈ (upgradeRun (specWorld addrOf) env c).2.trace)
    (hev : ev.ret = .error e) (himpl : ev.call.deploysImplementation = true) :
    (upgradeRun (specWorld addrOf) env c).1 = .error e ∧
    (∀ x ∈ (upgradeRun (specWorld addrOf) env c).2.trace,
      x.call.kind ≠ .attach ∧ x.call.kind ≠ .upgrade) ∧
    (upgradeRun (specWorld addrOf) env c).2.world.admins = c.admins ∧
    (∀ a, (upgradeRun (specWorld addrOf) env c).2.world.adminAt a = c.adminAt a) := by
  obtain ⟨hres, htrace, hworld⟩ :=
    upgradeRun_implementation_failure_inv (specWorld addrOf) env c ev e hmem hev himpl
  have hadmins : (upgradeRun (specWorld addrOf) env c).2.world.admins = c.admins := by
    rcases hworld with ⟨s1, e1, hw⟩ | ⟨f1, s1, s2, e1, e2, hw⟩ | ⟨f1, s1, h1, s2, s3, e1, e2, e3, hw⟩
      | ⟨f1, s1, h1, s2, s3, s4, e1, e2, e3, e4, hw⟩
    · obtain ⟨-, rfl⟩ := specWorld_getContractFactory_error e1 (Or.inl rfl)
      rw [hw]
      rfl
    · obtain ⟨rfl, rfl⟩ := specWorld_getContractFactory_ok e1
      obtain ⟨-, rfl⟩ := specWorld_deploy_error e2
      rw [hw]
      rfl
    · obtain ⟨rfl, rfl⟩ := specWorld_getContractFactory_ok e1
      obtain ⟨rfl, rfl⟩ := specWorld_deploy_ok e2
      obtain ⟨-, rfl⟩ := specWorld_waitForDeployment_error e3
      rw [hw]
      simp [Chain.next]
    · obtain ⟨rfl, rfl⟩ := specWorld_getContractFactory_ok e1
      obtain ⟨rfl, rfl⟩ := specWorld_deploy_ok e2
      obtain rfl := specWorld_waitForDeployment_ok e3
      obtain ⟨-, rfl⟩ := specWorld_getAddress_error e4
      rw [hw]
      simp [Chain.next]
  exact ⟨hres, htrace, hadmins, fun a => by simp only [Chain.adminAt, hadmins]⟩

/-- Witness of C5: on `faultyChain` the deployment of the new implementation
meets a transport error; admin `0xBB` stays bound to proxy `0xCC` on
implementation `0xAA`. -/
theorem upgrade_failed_deployment_witness :
    (⟨.deploy "GameVoting", .error ⟨"transport error"⟩⟩ : Event String Handle Nat)
      ∈ (upgradeRun (specWorld scenarioAddr) (some "0xBB") faultyChain).2.trace ∧
    (upgradeRun (specWorld scenarioAddr) (some "0xBB") faultyChain).1
      = .error ⟨"transport error"⟩ ∧
    (upgradeRun (specWorld scenarioAddr) (some "0xBB") faultyChain).2.world.admins
      = [("0xBB", ⟨"0x01", .Bound ⟨"0xCC", "0xAA"⟩⟩)] :=
  have h := upgrade_failed_deployment_leaves_admin_untouched scenarioAddr faultyChain
    (some "0xBB") ⟨.deploy "GameVoting", .error ⟨"transport error"⟩⟩ ⟨"transport error"⟩
    (by decide) rfl rfl
  ⟨by decide, h.1, h.2.2.1⟩

/-! ## Fail-fast ordering of the deployment -/

/-- C6: in a run of `scripts/deploy.js` in which some collaborator request
fails with error `e`, the run fails with `e`, the failing request is the last
entry of the transcript, every request before it succeeded, and no line of the
deployment summary is printed.  The transcript follows `deployNext`: each
request, with its arguments, is the one the fixed order prescribes after the
requests before it (the `GameVoting` factory, `deploy` on it, confirmation and
address of the handle returned; the same for `GameVotingAdmin`; `deployProxy`
on the admin handle with the implementation address, `wait` on its
transaction; the proxy read on the admin handle), so it is exactly the
initial segment of that order up to and including the failing request. -/
theorem deploy_stops_at_first_failure {σ F H T : Type} (W : World σ F H T) (s : σ)
    (ev : Event F H T) (e : JsError)
    (hmem : ev ∈ (deployRun W s).2.trace) (hev : ev.ret = .error e) :
    (deployRun W s).1 = .error e ∧
    (deployRun W s).2.trace.getLast? = some ev ∧
    (∀ x ∈ (deployRun W s).2.trace.dropLast, x.ret.isOk = true) ∧
    (deployRun W s).2.trace.map (fun x => x.call.kind)
      = deployOrder.take (deployRun W s).2.trace.length ∧
    (deployRun W s).2.trace.length ≤ deployOrder.length ∧
    (deployRun W s).2.stdout.any isManifestLine = false ∧
    followsScript deployNext [] (deployRun W s).2.trace := by
  generalize hrun : deployRun W s = out at *
  simp only [deployRun, deployMain, perform_bind, consoleLog_bind, consoleLog] at hrun
  repeat' split at hrun
  all_goals subst hrun
  all_goals simp only [List.nil_append, List.singleton_append, List.cons_append,
    List.mem_cons, List.mem_singleton, List.not_mem_nil, or_false] at hmem
  all_goals (repeat (rcases hmem with h | hmem; · (subst h; simp at hev)))
  all_goals (try (subst hmem; simp at hev))
  all_goals simp_all [deployOrder, isManifestLine, Res.isOk, Call.kind, followsScript, deployNext,
    factoryAt, handleAt, addressAt, txAt]

/-- Witness of C6: the deployment of the admin (the sixth request) meets a
transport error; the transcript is the five successful requests before it and
the failed `deploy` on the `GameVotingAdmin` factory, and nothing after. -/
theorem deploy_stops_at_first_failure_witness :
    (⟨.deploy "GameVotingAdmin", .error ⟨"transport error"⟩⟩ : Event String Handle Nat)
      ∈ (deployRun (specWorld scenarioAddr) adminFaultChain).2.trace ∧
    (deployRun (specWorld scenarioAddr) adminFaultChain).1 = .error ⟨"transport error"⟩ ∧
    (deployRun (specWorld scenarioAddr) adminFaultChain).2.trace.map (fun x => x.call)
      = [.getContractFactory "GameVoting", .deploy "GameVoting",
         .waitForDeployment ⟨"GameVoting", "0xAA"⟩, .getAddress ⟨"GameVoting", "0xAA"⟩,
         .getContractFactory "GameVotingAdmin", .deploy "GameVotingAdmin"] ∧
    (deployRun (specWorld scenarioAddr) adminFaultChain).2.stdout.any isManifestLine = false ∧
    followsScript deployNext [] (deployRun (specWorld scenarioAddr) adminFaultChain).2.trace :=
  have h := deploy_stops_at_first_failure (specWorld scenarioAddr) adminFaultChain
    ⟨.deploy "GameVotingAdmin", .error ⟨"transport error"⟩⟩ ⟨"transport error"⟩
    (by decide) rfl
  ⟨by decide, h.1, by decide, h.2.2.2.2.2.1, h.2.2.2.2.2.2⟩

/-! ## Upgrading an admin without a proxy -/

/-- C7: in a run of `scripts/upgrade.js` with a non-empty admin address `a` at
which the chain holds an `Unbound` admin, the run fails, the admin at `a` is
still `Unbound` afterwards, the success line is not printed, and no request
beyond `upgrade` is made (no `wait`, no proxy read); no `upgrade` request
succeeds.  When the chain client serves the five requests before the repoint,
the failing request, the last of the transcript, is `upgrade` on the handle
attached to `a`, and its error is the error of the run. -/
theorem upgrade_of_unbound_admin_fails_at_repoint (addrOf : Nat → Address) (c : Chain)
    (a owner : Address) (ha : a ≠ "")
    (hunbound : c.adminAt a = some ⟨owner, .Unbound⟩) :
    (∃ e, (upgradeRun (specWorld addrOf) (some a) c).1 = .error e) ∧
    (upgradeRun (specWorld addrOf) (some a) c).2.world.adminAt a = some ⟨owner, .Unbound⟩ ∧
    ["\nUpgrade completed successfully!"] ∉ (upgradeRun (specWorld addrOf) (some a) c).2.stdout ∧
    (∀ ev ∈ (upgradeRun (specWorld addrOf) (some a) c).2.trace,
      ev.call.kind ≠ .wait ∧ ev.call.kind ≠ .gameVotingProxy ∧
      (ev.call.kind = .upgrade → ev.ret.isOk = false)) ∧
    ((∀ t ∈ c.faults, t < c.tick ∨ c.tick + 5 ≤ t) →
      ∃ e, (upgradeRun (specWorld addrOf) (some a) c).1 = .error e ∧
        (upgradeRun (specWorld addrOf) (some a) c).2.trace.getLast? =
          some ⟨.upgrade ⟨"GameVotingAdmin", a⟩ (addrOf c.nonce), .error e⟩ ∧
        (upgradeRun (specWorld addrOf) (some a) c).2.trace.length = 7) := by
  generalize hrun : upgradeRun (specWorld addrOf) (some a) c = out at *
  have hfalsy : isFalsy (some a) = false := by simp [isFalsy, ha]
  simp only [Chain.adminAt] at hunbound
  simp only [upgradeRun, upgradeMain, consoleLog_bind, hfalsy, Bool.false_eq_true, if_false,
    pure_bind_run, specWorld, Option.getD_some] at hrun
  simp only [perform_serve_bind, perform_const_bind, consoleLog_bind, consoleLog] at hrun
  by_cases hown : c.signer = owner
  all_goals simp [Chain.next, Chain.adminAt, hunbound, AdminUnit.upgrade, hown] at hrun
  all_goals repeat' split at hrun
  all_goals subst hrun
  all_goals simp [Chain.adminAt, hunbound, Call.kind, Res.isOk]
  all_goals exact ⟨_, ‹_ ∈ c.faults›, by omega, by omega⟩

/-- Witness of C7: the upgrade is run against the freshly deployed admin `0xBB`
of `unboundChain`, on which no proxy was created. -/
theorem upgrade_of_unbound_admin_witness :
    ("0xBB" : Address) ≠ "" ∧
    unboundChain.adminAt "0xBB" = some ⟨"0x01", .Unbound⟩ ∧
    (upgradeRun (specWorld scenarioAddr) (some "0xBB") unboundChain).1
      = .error ⟨"proxy not created"⟩ ∧
    (upgradeRun (specWorld scenarioAddr) (some "0xBB") unboundChain).2.world.adminAt "0xBB"
      = some ⟨"0x01", .Unbound⟩ ∧
    (upgradeRun (specWorld scenarioAddr) (some "0xBB") unboundChain).2.trace.getLast?
      = some ⟨.upgrade ⟨"GameVotingAdmin", "0xBB"⟩ "0xCC", .error ⟨"proxy not created"⟩⟩ :=
  have h := upgrade_of_unbound_admin_fails_at_repoint scenarioAddr unboundChain "0xBB" "0x01"
    (by decide) (by decide)
  ⟨by decide, by decide, by decide, h.2.1, by decide⟩

/-! ## The exit code -/

/-- C8: for both scripts the exit code is 0 exactly when `main` completes, which
is exactly when no request failed (and, for the upgrade, the admin address was
configured); when a request fails, or `main` throws for any reason, that very
error is what is written to the error stream, and the exit code is 1. -/
theorem exit_code_zero_iff_no_step_failed {σ F H T : Type} (W : World σ F H T)
    (env : Option String) (s : σ) :
    (((runScript (deployMain W) s).code = 0 ↔ (deployRun W s).1 = .ok ()) ∧
     ((runScript (deployMain W) s).code = 0 ↔
       ∀ ev ∈ (runScript (deployMain W) s).final.trace, ev.ret.isOk = true) ∧
     (∀ e, (deployRun W s).1 = .error e →
       (runScript (deployMain W) s).code = 1 ∧ (runScript (deployMain W) s).stderr = [e]) ∧
     (∀ ev e, ev ∈ (runScript (deployMain W) s).final.trace → ev.ret = .error e →
       (runScript (deployMain W) s).code = 1 ∧ (runScript (deployMain W) s).stderr = [e])) ∧
    (((runScript (upgradeMain W env) s).code = 0 ↔ (upgradeRun W env s).1 = .ok ()) ∧
     ((runScript (upgradeMain W env) s).code = 0 ↔
       isFalsy env = false ∧
         ∀ ev ∈ (runScript (upgradeMain W env) s).final.trace, ev.ret.isOk = true) ∧
     (∀ e, (upgradeRun W env s).1 = .error e →
       (runScript (upgradeMain W env) s).code = 1 ∧
         (runScript (upgradeMain W env) s).stderr = [e]) ∧
     (∀ ev e, ev ∈ (runScript (upgradeMain W env) s).final.trace → ev.ret = .error e →
       (runScript (upgradeMain W env) s).code = 1 ∧
         (runScript (upgradeMain W env) s).stderr = [e]) ∧
     (isFalsy env = true →
       (runScript (upgradeMain W env) s).code = 1 ∧
         (runScript (upgradeMain W env) s).stderr = [configError])) :=
  ⟨deploy_exit_code W s, upgrade_exit_code W env s⟩

/-- An instance of C8: on `faultyChain` the upgrade fails at the deployment of
the new implementation, the transport error is what reaches the error stream
and the exit code is 1; on `scenarioChain` the upgrade completes with exit
code 0. -/
theorem exit_code_witness :
    (runScript (upgradeMain (specWorld scenarioAddr) (some "0xBB")) faultyChain).code = 1 ∧
    (runScript (upgradeMain (specWorld scenarioAddr) (some "0xBB")) faultyChain).stderr
      = [⟨"transport error"⟩] ∧
    (runScript (upgradeMain (specWorld scenarioAddr) (some "0xBB")) scenarioChain).code = 0 ∧
    (runScript (deployMain (specWorld scenarioAddr)) emptyChain).code = 0 :=
  have h := (exit_code_zero_iff_no_step_failed (specWorld scenarioAddr) (some "0xBB")
    faultyChain).2.2.2.1 ⟨"transport error"⟩ (by decide)
  ⟨h.1, h.2,
    ((exit_code_zero_iff_no_step_failed (specWorld scenarioAddr) (some "0xBB")
      scenarioChain).2.1.mpr (by decide)),
    ((exit_code_zero_iff_no_step_failed (specWorld scenarioAddr) none
      emptyChain).1.1.mpr (by decide))⟩

/-! ## The deployment manifest -/

/-- C9: a successful run of `scripts/deploy.js` made exactly the eleven
requests of `deployTranscript`, and the summary it prints is the triple
`(a1, a2, p)` where `a1` and `a2` are what `getAddress` returned on the two
handles the run's own `deploy` requests returned, and `p` is what
`gameVotingProxy` returned on the admin handle, requested after `wait` on the
`deployProxy` transaction had returned; nothing of the summary comes from the
transaction `tx` itself. -/
theorem deploy_manifest_reports_read_back_addresses {σ F H T : Type} (W : World σ F H T)
    (s : σ) (hok : (deployRun W s).1 = .ok ()) :
    ∃ f1 h1 a1 f2 h2 a2 tx p,
      (deployRun W s).2.trace = deployTranscript f1 h1 a1 f2 h2 a2 tx p ∧
      (deployRun W s).2.stdout = deployOutput a1 a2 p ∧
      (deployRun W s).2.stdout.filter isManifestLine =
        [["\nDeployment Summary:"], ["Implementation:", a1], ["Admin:", a2], ["Proxy:", p]] := by
  obtain ⟨f1, s1, h1, s2, s3, a1, s4, f2, s5, h2, s6, s7, a2, s8, tx, s9, s10, p, s11, -, -, -, -,
    -, -, -, -, -, -, -, hout⟩ := deployRun_ok_inv W s hok
  refine ⟨f1, h1, a1, f2, h2, a2, tx, p, ?_, ?_, ?_⟩
  · rw [hout]
  · rw [hout]
  · rw [hout]
    simp [deployOutput, List.filter, isManifestLine]

/-- Witness of C9 (Scenario A of the spec): implementation `0xAA`, admin `0xBB`, proxy `0xCC`. -/
theorem deploy_manifest_witness :
    (deployRun (specWorld scenarioAddr) emptyChain).1 = .ok () ∧
    (deployRun (specWorld scenarioAddr) emptyChain).2.stdout.filter isManifestLine =
      [["\nDeployment Summary:"], ["Implementation:", "0xAA"], ["Admin:", "0xBB"],
       ["Proxy:", "0xCC"]] ∧
    ∃ f1 h1 a1 f2 h2 a2 tx p,
      (deployRun (specWorld scenarioAddr) emptyChain).2.trace
        = deployTranscript f1 h1 a1 f2 h2 a2 tx p ∧
      (deployRun (specWorld scenarioAddr) emptyChain).2.stdout = deployOutput a1 a2 p ∧
      (deployRun (specWorld scenarioAddr) emptyChain).2.stdout.filter isManifestLine =
        [["\nDeployment Summary:"], ["Implementation:", a1], ["Admin:", a2], ["Proxy:", p]] :=
  ⟨by decide, by decide,
    deploy_manifest_reports_read_back_addresses (specWorld scenarioAddr) emptyChain (by decide)⟩

/-! ## What the upgrade deploys and submits -/

/-- C10: in every run of `scripts/upgrade.js` the requests are an initial
segment of the fixed order, in which `deploy` and `upgrade` occur once each;
the one `deploy` is made on the factory just obtained for `GameVoting` (it is
the second request, before the `GameVotingAdmin` factory is even asked for);
the admin handle comes from `attach` on the `GameVotingAdmin` factory with
the configured address as its target; and `upgrade` is submitted on that
handle. -/
theorem upgrade_deploys_one_implementation_and_attaches {σ F H T : Type} (W : World σ F H T)
    (env : Option String) (s : σ) :
    (upgradeRun W env s).2.trace.map (fun x => x.call.kind)
      = upgradeOrder.take (upgradeRun W env s).2.trace.length ∧
    ((upgradeRun W env s).2.trace.filter (fun x => x.call.kind = .deploy)).length ≤ 1 ∧
    ((upgradeRun W env s).2.trace.filter (fun x => x.call.kind = .upgrade)).length ≤ 1 ∧
    (∀ ev ∈ (upgradeRun W env s).2.trace, ev.call.kind = .deploy →
      ∃ f, ev.call = .deploy f ∧
        (upgradeRun W env s).2.trace.take 2 =
          [⟨.getContractFactory "GameVoting", .ok (.factory f)⟩, ev]) ∧
    (∀ ev ∈ (upgradeRun W env s).2.trace, ev.call.kind = .attach →
      ∃ f a, env = some a ∧ ev.call = .attach f a ∧
        ⟨.getContractFactory "GameVotingAdmin", .ok (.factory f)⟩
          ∈ (upgradeRun W env s).2.trace) ∧
    (∀ ev ∈ (upgradeRun W env s).2.trace, ev.call.kind = .upgrade →
      ∃ f a h h1 a1, env = some a ∧ ev.call = .upgrade h a1 ∧
        ⟨.attach f a, .ok (.handle h)⟩ ∈ (upgradeRun W env s).2.trace ∧
        ⟨.getAddress h1, .ok (.address a1)⟩ ∈ (upgradeRun W env s).2.trace) := by
  generalize hrun : upgradeRun W env s = out at *
  simp only [upgradeRun, upgradeMain, consoleLog_bind] at hrun
  split at hrun
  · simp only [jsThrow_bind] at hrun
    subst hrun
    simp [upgradeOrder]
  · rename_i hfalsy
    cases env with
    | none => simp [isFalsy] at hfalsy
    | some a =>
      simp only [pure_bind_run, perform_bind, consoleLog_bind, consoleLog, Option.getD_some]
        at hrun
      repeat' split at hrun
      all_goals subst hrun
      all_goals simp [upgradeOrder, Call.kind, List.filter]
      all_goals exact ⟨_, _, _, _, ⟨rfl, rfl⟩, ⟨rfl, rfl⟩, rfl, rfl⟩

/-- An instance of C10 (Scenario B of the spec): the one `deploy` of the run is
made on the `GameVoting` factory, and `upgrade` is submitted on the handle
attached to the configured address `0xBB`. -/
theorem upgrade_deploys_one_implementation_witness :
    ((upgradeRun (specWorld scenarioAddr) (some "0xBB") scenarioChain).2.trace.filter
      (fun x => x.call.kind = .deploy)).length ≤ 1 ∧
    (⟨.attach "GameVotingAdmin" "0xBB", .ok (.handle ⟨"GameVotingAdmin", "0xBB"⟩)⟩ :
      Event String Handle Nat)
      ∈ (upgradeRun (specWorld scenarioAddr) (some "0xBB") scenarioChain).2.trace :=
  ⟨(upgrade_deploys_one_implementation_and_attaches (specWorld scenarioAddr) (some "0xBB")
      scenarioChain).2.1, by decide⟩

end GameVoting
